import Mathlib

/-!
Verification development for the `make_bb.py` bounding-box ground-truth
generator of the Detecting_walkers repository.

The numeric pipeline of the source is embedded over exact rationals `ℚ`.
The numpy library calls that are transcendental — `np.cos(np.radians ·)`,
`np.sin(np.radians ·)` and `fun fov => np.tan(fov * np.pi / 360)` — are
modelled as abstract function parameters bundled in `TrigModel`; every
theorem quantifies over an arbitrary such model, and concrete instances
used in witnesses agree with the real trigonometric functions at the
angles they are applied to (rotations of 0 degrees, field of view of 90
degrees).  `np.linalg.inv` is modelled by the exact cofactor inverse of a
4×4 matrix.  Python `int()` truncation toward zero on a float is modelled
by `pyInt` on the exact rational value.
-/

namespace DetectingWalkers

/-- Python `int()` on a (finite) real value: truncation toward zero,
on the exact rational. -/
def pyInt (q : ℚ) : ℤ := q.num.tdiv q.den

/-- Model of the transcendental numpy functions used by the source:
`cosd`/`sind` stand for `np.cos(np.radians ·)` / `np.sin(np.radians ·)`,
and `tanHalfDeg` for `fun fov => np.tan(fov * np.pi / 360.0)`. -/
structure TrigModel where
  cosd : ℚ → ℚ
  sind : ℚ → ℚ
  tanHalfDeg : ℚ → ℚ

/-- Mirrors `class loc` of `make_bb.py` (fields x, y, z). -/
structure Loc where
  x : ℚ
  y : ℚ
  z : ℚ
  deriving DecidableEq

/-- Mirrors `class rot` of `make_bb.py` (fields yaw, roll, pitch). -/
structure Rot where
  yaw : ℚ
  roll : ℚ
  pitch : ℚ
  deriving DecidableEq

/-- Mirrors `class Extent` of `make_bb.py`. -/
structure Extent where
  x : ℚ
  y : ℚ
  z : ℚ
  deriving DecidableEq

/-- A homogeneous 4-vector (one column of the 8×4 corner array). -/
structure Vec4 where
  x : ℚ
  y : ℚ
  z : ℚ
  w : ℚ
  deriving DecidableEq

/-- A 4×4 matrix with explicit rational entries (replaces `np.matrix`). -/
structure Mat4 where
  a00 : ℚ
  a01 : ℚ
  a02 : ℚ
  a03 : ℚ
  a10 : ℚ
  a11 : ℚ
  a12 : ℚ
  a13 : ℚ
  a20 : ℚ
  a21 : ℚ
  a22 : ℚ
  a23 : ℚ
  a30 : ℚ
  a31 : ℚ
  a32 : ℚ
  a33 : ℚ
  deriving DecidableEq

/-- A 3×3 matrix (the camera calibration matrix). -/
structure Mat3 where
  b00 : ℚ
  b01 : ℚ
  b02 : ℚ
  b10 : ℚ
  b11 : ℚ
  b12 : ℚ
  b20 : ℚ
  b21 : ℚ
  b22 : ℚ
  deriving DecidableEq

/-- Matrix product of two 4×4 matrices (`np.dot`). -/
def Mat4.mul (A B : Mat4) : Mat4 where
  a00 := A.a00 * B.a00 + A.a01 * B.a10 + A.a02 * B.a20 + A.a03 * B.a30
  a01 := A.a00 * B.a01 + A.a01 * B.a11 + A.a02 * B.a21 + A.a03 * B.a31
  a02 := A.a00 * B.a02 + A.a01 * B.a12 + A.a02 * B.a22 + A.a03 * B.a32
  a03 := A.a00 * B.a03 + A.a01 * B.a13 + A.a02 * B.a23 + A.a03 * B.a33
  a10 := A.a10 * B.a00 + A.a11 * B.a10 + A.a12 * B.a20 + A.a13 * B.a30
  a11 := A.a10 * B.a01 + A.a11 * B.a11 + A.a12 * B.a21 + A.a13 * B.a31
  a12 := A.a10 * B.a02 + A.a11 * B.a12 + A.a12 * B.a22 + A.a13 * B.a32
  a13 := A.a10 * B.a03 + A.a11 * B.a13 + A.a12 * B.a23 + A.a13 * B.a33
  a20 := A.a20 * B.a00 + A.a21 * B.a10 + A.a22 * B.a20 + A.a23 * B.a30
  a21 := A.a20 * B.a01 + A.a21 * B.a11 + A.a22 * B.a21 + A.a23 * B.a31
  a22 := A.a20 * B.a02 + A.a21 * B.a12 + A.a22 * B.a22 + A.a23 * B.a32
  a23 := A.a20 * B.a03 + A.a21 * B.a13 + A.a22 * B.a23 + A.a23 * B.a33
  a30 := A.a30 * B.a00 + A.a31 * B.a10 + A.a32 * B.a20 + A.a33 * B.a30
  a31 := A.a30 * B.a01 + A.a31 * B.a11 + A.a32 * B.a21 + A.a33 * B.a31
  a32 := A.a30 * B.a02 + A.a31 * B.a12 + A.a32 * B.a22 + A.a33 * B.a32
  a33 := A.a30 * B.a03 + A.a31 * B.a13 + A.a32 * B.a23 + A.a33 * B.a33

/-- Apply a 4×4 matrix to a homogeneous 4-vector. -/
def Mat4.apply (A : Mat4) (v : Vec4) : Vec4 where
  x := A.a00 * v.x + A.a01 * v.y + A.a02 * v.z + A.a03 * v.w
  y := A.a10 * v.x + A.a11 * v.y + A.a12 * v.z + A.a13 * v.w
  z := A.a20 * v.x + A.a21 * v.y + A.a22 * v.z + A.a23 * v.w
  w := A.a30 * v.x + A.a31 * v.y + A.a32 * v.z + A.a33 * v.w

/-- Determinant of a 3×3 matrix given entry by entry (helper for the
cofactor inverse modelling `np.linalg.inv`). -/
def det3 (a b c d e f g h i : ℚ) : ℚ :=
  a * (e * i - f * h) - b * (d * i - f * g) + c * (d * h - e * g)

/-- Determinant of a 4×4 matrix, expanded along the first row. -/
def Mat4.det (A : Mat4) : ℚ :=
  A.a00 * det3 A.a11 A.a12 A.a13 A.a21 A.a22 A.a23 A.a31 A.a32 A.a33
  - A.a01 * det3 A.a10 A.a12 A.a13 A.a20 A.a22 A.a23 A.a30 A.a32 A.a33
  + A.a02 * det3 A.a10 A.a11 A.a13 A.a20 A.a21 A.a23 A.a30 A.a31 A.a33
  - A.a03 * det3 A.a10 A.a11 A.a12 A.a20 A.a21 A.a22 A.a30 A.a31 A.a32

/-- Model of the library call `np.linalg.inv` on a 4×4 matrix: the exact
cofactor (adjugate over determinant) inverse.  The source only ever
inverts rigid-pose matrices produced by `get_matrix`, whose determinant
is nonzero; on a singular matrix numpy raises (out of scope here, see
claim C9). -/
def Mat4.inv (A : Mat4) : Mat4 :=
  let d := A.det
  { a00 := det3 A.a11 A.a12 A.a13 A.a21 A.a22 A.a23 A.a31 A.a32 A.a33 / d
    a01 := -det3 A.a01 A.a02 A.a03 A.a21 A.a22 A.a23 A.a31 A.a32 A.a33 / d
    a02 := det3 A.a01 A.a02 A.a03 A.a11 A.a12 A.a13 A.a31 A.a32 A.a33 / d
    a03 := -det3 A.a01 A.a02 A.a03 A.a11 A.a12 A.a13 A.a21 A.a22 A.a23 / d
    a10 := -det3 A.a10 A.a12 A.a13 A.a20 A.a22 A.a23 A.a30 A.a32 A.a33 / d
    a11 := det3 A.a00 A.a02 A.a03 A.a20 A.a22 A.a23 A.a30 A.a32 A.a33 / d
    a12 := -det3 A.a00 A.a02 A.a03 A.a10 A.a12 A.a13 A.a30 A.a32 A.a33 / d
    a13 := det3 A.a00 A.a02 A.a03 A.a10 A.a12 A.a13 A.a20 A.a22 A.a23 / d
    a20 := det3 A.a10 A.a11 A.a13 A.a20 A.a21 A.a23 A.a30 A.a31 A.a33 / d
    a21 := -det3 A.a00 A.a01 A.a03 A.a20 A.a21 A.a23 A.a30 A.a31 A.a33 / d
    a22 := det3 A.a00 A.a01 A.a03 A.a10 A.a11 A.a13 A.a30 A.a31 A.a33 / d
    a23 := -det3 A.a00 A.a01 A.a03 A.a10 A.a11 A.a13 A.a20 A.a21 A.a23 / d
    a30 := -det3 A.a10 A.a11 A.a12 A.a20 A.a21 A.a22 A.a30 A.a31 A.a32 / d
    a31 := det3 A.a00 A.a01 A.a02 A.a20 A.a21 A.a22 A.a30 A.a31 A.a32 / d
    a32 := -det3 A.a00 A.a01 A.a02 A.a10 A.a11 A.a12 A.a30 A.a31 A.a32 / d
    a33 := det3 A.a00 A.a01 A.a02 A.a10 A.a11 A.a12 A.a20 A.a21 A.a22 / d }

/-- Apply the 3×3 calibration matrix to a 3-vector given as components. -/
def Mat3.apply (A : Mat3) (x y z : ℚ) : ℚ × ℚ × ℚ :=
  (A.b00 * x + A.b01 * y + A.b02 * z,
   A.b10 * x + A.b11 * y + A.b12 * z,
   A.b20 * x + A.b21 * y + A.b22 * z)

/-- Mirrors `get_matrix(rotation, location)` of `make_bb.py`: the 4×4
pose matrix built from yaw/roll/pitch cosines and sines and a
translation. -/
def get_matrix (tm : TrigModel) (rotation : Rot) (location : Loc) : Mat4 :=
  let c_y := tm.cosd rotation.yaw
  let s_y := tm.sind rotation.yaw
  let c_r := tm.cosd rotation.roll
  let s_r := tm.sind rotation.roll
  let c_p := tm.cosd rotation.pitch
  let s_p := tm.sind rotation.pitch
  { a00 := c_p * c_y
    a01 := c_y * s_p * s_r - s_y * c_r
    a02 := -c_y * s_p * c_r - s_y * s_r
    a03 := location.x
    a10 := s_y * c_p
    a11 := s_y * s_p * s_r + c_y * c_r
    a12 := -s_y * s_p * c_r + c_y * s_r
    a13 := location.y
    a20 := s_p
    a21 := -c_p * s_r
    a22 := c_p * c_r
    a23 := location.z
    a30 := 0
    a31 := 0
    a32 := 0
    a33 := 1 }

/-- Mirrors `class Camera` of `make_bb.py`: pose and image parameters.
The calibration matrix it stores at construction time is recovered by
`Camera.calibration`. -/
structure Camera where
  location : Loc
  rotation : Rot
  height : ℚ
  width : ℚ
  fov : ℚ
  deriving DecidableEq

/-- The intrinsic calibration matrix built in `Camera.__init__`:
identity with `[0,2] = width/2`, `[1,2] = height/2` and
`[0,0] = [1,1] = width / (2 * tan(fov * pi / 360))`. -/
def Camera.calibration (tm : TrigModel) (c : Camera) : Mat3 :=
  let f := c.width / (2 * tm.tanHalfDeg c.fov)
  { b00 := f, b01 := 0, b02 := c.width / 2
    b10 := 0, b11 := f, b12 := c.height / 2
    b20 := 0, b21 := 0, b22 := 1 }

/-- Mirrors `class Walker` of `make_bb.py`: per-frame actor state.
`bb_rotation` is always constructed as `(0,0,0)` by `Walker.__init__`;
the field is kept to mirror the source faithfully. -/
structure Walker where
  id : ℤ
  bb_extent : Extent
  bb_location : Loc
  bb_rotation : Rot
  location : Loc
  rotation : Rot
  cam : Camera
  deriving DecidableEq

/-- Mirrors `Walker.get_distance`: squared planar distance from the
camera to the walker, ignoring the z axis. -/
def Walker.get_distance (w : Walker) : ℚ :=
  let cam_loc := w.cam.location
  let obj_loc := w.location
  (cam_loc.x - obj_loc.x) * (cam_loc.x - obj_loc.x)
    + (cam_loc.y - obj_loc.y) * (cam_loc.y - obj_loc.y)

/-- Mirrors `Walker.create_bb_points`: the 8 homogeneous corner points of
the local 3D bounding box, in source order. -/
def Walker.create_bb_points (w : Walker) : List Vec4 :=
  let e := w.bb_extent
  [⟨e.x, e.y, -e.z, 1⟩, ⟨-e.x, e.y, -e.z, 1⟩, ⟨-e.x, -e.y, -e.z, 1⟩, ⟨e.x, -e.y, -e.z, 1⟩,
   ⟨e.x, e.y, e.z, 1⟩, ⟨-e.x, e.y, e.z, 1⟩, ⟨-e.x, -e.y, e.z, 1⟩, ⟨e.x, -e.y, e.z, 1⟩]

/-- Mirrors `Walker.walker_to_world`: build
`bb_world_matrix = walker_world_matrix @ bb_walker_matrix` once and
apply it to every corner. -/
def Walker.walker_to_world (tm : TrigModel) (w : Walker) (cords : List Vec4) : List Vec4 :=
  let bb_walker_matrix := get_matrix tm w.bb_rotation w.bb_location
  let walker_world_matrix := get_matrix tm w.rotation w.location
  let bb_world_matrix := walker_world_matrix.mul bb_walker_matrix
  cords.map bb_world_matrix.apply

/-- Mirrors `Walker.world_to_sensor`: apply the inverse of the camera
pose matrix to every corner. -/
def Walker.world_to_sensor (tm : TrigModel) (w : Walker) (cords : List Vec4) : List Vec4 :=
  let sensor_world_matrix := get_matrix tm w.cam.rotation w.cam.location
  let world_sensor_matrix := sensor_world_matrix.inv
  cords.map world_sensor_matrix.apply

/-- Mirrors `Walker.walker_to_sensor`. -/
def Walker.walker_to_sensor (tm : TrigModel) (w : Walker) (cords : List Vec4) : List Vec4 :=
  w.world_to_sensor tm (w.walker_to_world tm cords)

/-- One projected corner: pixel coordinates `u`, `v` and camera-frame
depth `d` — one row of the matrix `bb` built in
`Walker.get_bounding_box` (columns `bb[:,0]`, `bb[:,1]`, `bb[:,2]`). -/
structure BBPoint where
  u : ℚ
  v : ℚ
  d : ℚ
  deriving DecidableEq

/-- The projection part of `Walker.get_bounding_box` (source lines
84–88): sensor coordinates are re-axed to `(y, -z, x)`, multiplied by
the calibration matrix, and perspective-divided by the depth.  (In the
source the division by a zero depth would produce a float infinity or
NaN; this exact model is only faithful on nonzero depths — see claim
C9.) -/
def Walker.project (tm : TrigModel) (w : Walker) : List BBPoint :=
  (w.walker_to_sensor tm w.create_bb_points).map fun s =>
    let b := (w.cam.calibration tm).apply s.y (-s.z) s.x
    ⟨b.1 / b.2.2, b.2.1 / b.2.2, b.2.2⟩

/-- Mirrors `Walker.get_bounding_box` (source lines 83–93): compute the
8 projected corners, then return `None` iff not all depths are `> 0`
**and** not all depths are `< 60`; otherwise return the corners. -/
def Walker.get_bounding_box (tm : TrigModel) (w : Walker) : Option (List BBPoint) :=
  let bb := w.project tm
  if (!(bb.all fun p => decide (p.d > 0))) && (!(bb.all fun p => decide (p.d < 60))) then
    none
  else
    some bb

/-- One step of the min/max accumulation loop of
`Walker.get_2d_bounding_box`: the state is `(min_x, max_x, min_y,
max_y)` and each of the four comparisons of the source loop body is
applied. -/
def cornerFold (st : ℤ × ℤ × ℤ × ℤ) (p : ℤ × ℤ) : ℤ × ℤ × ℤ × ℤ :=
  (if p.1 < st.1 then p.1 else st.1,
   if p.1 > st.2.1 then p.1 else st.2.1,
   if p.2 < st.2.2.1 then p.2 else st.2.2.1,
   if p.2 > st.2.2.2 then p.2 else st.2.2.2)

/-- Mirrors `Walker.get_2d_bounding_box` (source lines 95–118): keep the
corners with both float coordinates `>= 0`, truncate them to integers,
require all 8 to survive, accumulate min/max starting from
`min = 100000` and `max = 0`, and reject when `max_x - min_x < 17` or
`max_y - min_y < 35`.  Returns `((min_x, min_y), (max_x, max_y))`. -/
def Walker.get_2d_bounding_box (tm : TrigModel) (w : Walker) :
    Option ((ℤ × ℤ) × (ℤ × ℤ)) :=
  match w.get_bounding_box tm with
  | none => none
  | some bb =>
    let points := (bb.filter fun p => decide (p.u ≥ 0) && decide (p.v ≥ 0)).map
      fun p => (pyInt p.u, pyInt p.v)
    if points.length ≠ 8 then none
    else
      let st := points.foldl cornerFold (100000, 0, 100000, 0)
      if st.2.1 - st.1 < 17 ∨ st.2.2.2 - st.2.2.1 < 35 then none
      else some ((st.1, st.2.2.1), (st.2.1, st.2.2.2))

/-! ## The per-frame occlusion loop (source lines 232–257) -/

/-- The BGR colour triple of the pedestrian class in the semantic
raster: `(60, 20, 220)`. -/
def ped : ℤ × ℤ × ℤ := (60, 20, 220)

/-- State of the pixel scan of one walker: the instance buffer (a total
map from `(row, column)` to an actor id, `-1` meaning unassigned) and
the counter `cnt` of pixels claimed so far. -/
structure ScanState where
  inst : ℤ → ℤ → ℤ
  cnt : ℤ

/-- The list of integers produced by Python `range(a, b + 1)`. -/
def intRange (a b : ℤ) : List ℤ :=
  (List.range (b + 1 - a).toNat).map fun i => a + (i : ℤ)

/-- Innermost body of the scan (source lines 249–251): if the pixel is
unassigned and the semantic raster classifies it as pedestrian, assign
it to actor `aid` and increment the counter; otherwise do nothing. -/
def scanPixel (sem : ℤ → ℤ → ℤ × ℤ × ℤ) (aid y : ℤ) (st : ScanState) (x : ℤ) :
    ScanState :=
  if st.inst y x = -1 ∧ sem y x = ped then
    ⟨fun y' x' => if y' = y ∧ x' = x then aid else st.inst y' x', st.cnt + 1⟩
  else st

/-- One row of the scan: `for x in range(minx, maxx+1)` with
`if x >= w: break` modelled by `takeWhile`. -/
def scanRow (sem : ℤ → ℤ → ℤ × ℤ × ℤ) (wimg aid y minx maxx : ℤ)
    (st : ScanState) : ScanState :=
  ((intRange minx maxx).takeWhile fun x => decide (x < wimg)).foldl
    (scanPixel sem aid y) st

/-- The full pixel scan of one walker's rectangle (source lines
245–251): `for y in range(miny, maxy+1)` with `if y >= h: break`. -/
def scanWalker (sem : ℤ → ℤ → ℤ × ℤ × ℤ) (himg wimg aid minx miny maxx maxy : ℤ)
    (inst0 : ℤ → ℤ → ℤ) : ScanState :=
  ((intRange miny maxy).takeWhile fun y => decide (y < himg)).foldl
    (fun st y => scanRow sem wimg aid y minx maxx st) ⟨inst0, 0⟩

/-- One line of the ground-truth file (source line 257):
`frame,id,min_x,min_y,max_x-min_x+1,max_y-min_y+1,1,1,1`.  The last
three constant fields are `flag1`, `flag2`, `flag3`. -/
structure GTRec where
  frame : ℤ
  id : ℤ
  min_x : ℤ
  min_y : ℤ
  width : ℤ
  height : ℤ
  flag1 : ℤ
  flag2 : ℤ
  flag3 : ℤ
  deriving DecidableEq

/-- One iteration of the occlusion loop (source lines 237–257) for a
single walker: skip if the walker has no 2D box; otherwise scan its
rectangle, then reject (emitting nothing, but keeping the mutated
instance buffer) iff `total > 0 and 10*cnt < 2*total`; on acceptance the
detection is drawn and, when saving, written — modelled as the emitted
record. -/
def processWalker (tm : TrigModel) (sem : ℤ → ℤ → ℤ × ℤ × ℤ)
    (himg wimg fr : ℤ) (inst : ℤ → ℤ → ℤ) (w : Walker) :
    (ℤ → ℤ → ℤ) × Option GTRec :=
  match w.get_2d_bounding_box tm with
  | none => (inst, none)
  | some ((minx, miny), (maxx, maxy)) =>
    let total := (maxx - minx + 1) * (maxy - miny + 1)
    let st := scanWalker sem himg wimg w.id minx miny maxx maxy inst
    if total > 0 ∧ 10 * st.cnt < 2 * total then (st.inst, none)
    else (st.inst, some ⟨fr, w.id, minx, miny, maxx - minx + 1, maxy - miny + 1, 1, 1, 1⟩)

/-- The occlusion loop over a walker list, threading the shared
per-frame instance buffer and collecting the emitted ground-truth
records in order. -/
def processWalkers (tm : TrigModel) (sem : ℤ → ℤ → ℤ × ℤ × ℤ)
    (himg wimg fr : ℤ) : List Walker → (ℤ → ℤ → ℤ) → (ℤ → ℤ → ℤ) × List GTRec
  | [], inst => (inst, [])
  | w :: ws, inst =>
    let r := processWalker tm sem himg wimg fr inst w
    let rest := processWalkers tm sem himg wimg fr ws r.1
    (rest.1, r.2.toList ++ rest.2)

/-- Mirrors `walkers.sort(key=lambda x: x.dist)` (source line 232):
stable sort by ascending squared planar distance. -/
def sortWalkers (ws : List Walker) : List Walker :=
  ws.mergeSort fun a b => decide (a.get_distance ≤ b.get_distance)

/-- The per-frame instance buffer as initialised at source line 235:
every pixel unassigned (`-1`). -/
def initInstance : ℤ → ℤ → ℤ := fun _ _ => -1

/-- One whole frame of the occlusion stage: sort the walkers by
distance, then run the occlusion loop on a fresh instance buffer. -/
def processFrame (tm : TrigModel) (sem : ℤ → ℤ → ℤ × ℤ × ℤ)
    (himg wimg fr : ℤ) (walkers : List Walker) : (ℤ → ℤ → ℤ) × List GTRec :=
  processWalkers tm sem himg wimg fr (sortWalkers walkers) initInstance

/-! ## Log parsing (source lines 217–230)

A log line is modelled as its list of whitespace-separated tokens, each
token a rational number (the leading `TYPE`/`CAM` word of a line is also
a token; only its position matters).  A blank line and the empty string
returned by `readline` at end of file both split into the empty token
list.  Construction steps that would raise in Python (unpacking or
indexing a too-short list, `int()` of a non-integer) are modelled as
`none`, which aborts the frame's parse. -/

/-- Mirrors `Camera.__init__(setting, info)`: `setting` must unpack into
exactly `height, width, fov` and `info` must provide 6 pose values. -/
def Camera.ofLog (setting info : List ℚ) : Option Camera :=
  if setting.length = 3 ∧ 6 ≤ info.length then
    some { location := ⟨info.getD 0 0, info.getD 1 0, info.getD 2 0⟩
           rotation := ⟨info.getD 3 0, info.getD 4 0, info.getD 5 0⟩
           height := setting.getD 0 0
           width := setting.getD 1 0
           fov := setting.getD 2 0 }
  else none

/-- The walker record built from a well-formed actor line: token 1 is
the integer id and tokens 2–13 are the extent, box offset, world
location and world rotation; `bb_rotation` is `(0,0,0)`. -/
def mkWalkerRec (tok : List ℚ) (cam : Camera) : Walker where
  id := (tok.getD 1 0).num
  bb_extent := ⟨tok.getD 2 0, tok.getD 3 0, tok.getD 4 0⟩
  bb_location := ⟨tok.getD 5 0, tok.getD 6 0, tok.getD 7 0⟩
  bb_rotation := ⟨0, 0, 0⟩
  location := ⟨tok.getD 8 0, tok.getD 9 0, tok.getD 10 0⟩
  rotation := ⟨tok.getD 11 0, tok.getD 12 0, tok.getD 13 0⟩
  cam := cam

/-- Mirrors `Walker(line_splited[1], line_splited[2:], cam)`.  Fails
(Python would raise) when fewer than 14 tokens are present or the id
token is not an integer. -/
def mkWalker (tok : List ℚ) (cam : Camera) : Option Walker :=
  if 14 ≤ tok.length ∧ (tok.getD 1 0).den = 1 then some (mkWalkerRec tok cam)
  else none

/-- Mirrors the actor-line loop (source lines 222–230): accumulate
walkers until a blank line or a line with fewer than 10 tokens (or end
of file, where `readline` yields the empty string); a line that makes
`Walker.__init__` raise aborts the parse (`none`). -/
def parseWalkers (cam : Camera) : List (List ℚ) → Option (List Walker)
  | [] => some []
  | line :: rest =>
    if line.length < 10 then some []
    else
      match mkWalker line cam with
      | none => none
      | some w => (parseWalkers cam rest).map (w :: ·)

/-- Mirrors the per-frame header reads (source lines 217–220) followed
by the actor-line loop: a velocity line (ignored), a camera-setting line
and a camera-pose line (both used from token 1 on), then actor lines. -/
def parseFrame : List (List ℚ) → Option (Camera × List Walker)
  | _vel :: setting :: info :: rest =>
    match Camera.ofLog (setting.drop 1) (info.drop 1) with
    | none => none
    | some cam => (parseWalkers cam rest).map (fun ws => (cam, ws))
  | _ => none

/-! ## Concrete instances used by witnesses and counterexamples

All rotations involved are 0 degrees and all fields of view 90 degrees,
so a trig model agreeing with the real functions only there suffices:
`cos(radians 0) = 1`, `sin(radians 0) = 0`, `tan(90 * pi / 360) = 1`. -/

/-- Trig model for inputs whose angles are all 0 degrees (rotations)
or 90 degrees (field of view): constantly the exact values taken
there. -/
def tm0 : TrigModel := ⟨fun _ => 1, fun _ => 0, fun _ => 1⟩

/-- A 1×1-pixel camera at the origin with no rotation and 90° fov
(focal length 1/2, principal point (1/2, 1/2)). -/
def cam1 : Camera := ⟨⟨0, 0, 0⟩, ⟨0, 0, 0⟩, 1, 1, 90⟩

/-- A 17-wide, 8-high camera at the origin with no rotation and 90°
fov. -/
def cam2 : Camera := ⟨⟨0, 0, 0⟩, ⟨0, 0, 0⟩, 8, 17, 90⟩

/-- Walker one unit in front of `cam1` whose corners project exactly to
pixel rectangle (0,0)–(17,35): the minimal size accepted by the 17×35
check. -/
def wkA : Walker :=
  ⟨7, ⟨0, 17, 35⟩, ⟨0, 16, -34⟩, ⟨0, 0, 0⟩, ⟨1, 0, 0⟩, ⟨0, 0, 0⟩, cam1⟩

/-- Walker one unit in front of `cam1` all of whose corners project
beyond pixel coordinate 100000 on both axes, with a true pixel extent of
only 1×1. -/
def wkB : Walker :=
  ⟨8, ⟨0, 1, 1⟩, ⟨0, 300000, -300000⟩, ⟨0, 0, 0⟩, ⟨1, 0, 0⟩, ⟨0, 0, 0⟩, cam1⟩

/-- Walker one unit **behind** `cam1` (all corner depths are `-1`)
whose corners nevertheless project to the pixel rectangle
(0,0)–(17,35). -/
def wkC : Walker :=
  ⟨9, ⟨0, 17, 35⟩, ⟨0, -16, 34⟩, ⟨0, 0, 0⟩, ⟨-1, 0, 0⟩, ⟨0, 0, 0⟩, cam1⟩

/-- Walker one unit in front of `cam2` with pixel rectangle
(0,0)–(17,35); the 8×17 image clamp leaves 136 scanned pixels of its
648-pixel rectangle. -/
def wkD : Walker :=
  ⟨4, ⟨0, 1, 35/17⟩, ⟨0, 0, -27/17⟩, ⟨0, 0, 0⟩, ⟨1, 0, 0⟩, ⟨0, 0, 0⟩, cam2⟩

/-- Semantic raster with a single pedestrian pixel at row 0, column 0. -/
def sem1 : ℤ → ℤ → ℤ × ℤ × ℤ := fun y x => if y = 0 ∧ x = 0 then ped else (0, 0, 0)

/-- Semantic raster that is pedestrian everywhere. -/
def semP : ℤ → ℤ → ℤ × ℤ × ℤ := fun _ _ => ped

/-- Instance buffer in which pixel (0,0) is already owned by actor 5. -/
def inst5 : ℤ → ℤ → ℤ := fun y x => if y = 0 ∧ x = 0 then 5 else -1

/-! ## Unfolding lemmas for the pipeline stages -/

lemma gbb_def (tm : TrigModel) (w : Walker) : w.get_bounding_box tm =
    if (!((w.project tm).all fun p => decide (p.d > 0)))
        && (!((w.project tm).all fun p => decide (p.d < 60))) then none
    else some (w.project tm) := rfl

lemma g2d_def (tm : TrigModel) (w : Walker) : w.get_2d_bounding_box tm =
    match w.get_bounding_box tm with
    | none => none
    | some bb =>
      let points := (bb.filter fun p => decide (p.u ≥ 0) && decide (p.v ≥ 0)).map
        fun p => (pyInt p.u, pyInt p.v)
      if points.length ≠ 8 then none
      else
        let st := points.foldl cornerFold (100000, 0, 100000, 0)
        if st.2.1 - st.1 < 17 ∨ st.2.2.2 - st.2.2.1 < 35 then none
        else some ((st.1, st.2.2.1), (st.2.1, st.2.2.2)) := rfl

lemma processWalker_def (tm : TrigModel) (sem : ℤ → ℤ → ℤ × ℤ × ℤ)
    (himg wimg fr : ℤ) (inst : ℤ → ℤ → ℤ) (w : Walker) :
    processWalker tm sem himg wimg fr inst w =
    match w.get_2d_bounding_box tm with
    | none => (inst, none)
    | some ((minx, miny), (maxx, maxy)) =>
      let total := (maxx - minx + 1) * (maxy - miny + 1)
      let st := scanWalker sem himg wimg w.id minx miny maxx maxy inst
      if total > 0 ∧ 10 * st.cnt < 2 * total then (st.inst, none)
      else (st.inst, some ⟨fr, w.id, minx, miny, maxx - minx + 1, maxy - miny + 1, 1, 1, 1⟩) := rfl

lemma project_length (tm : TrigModel) (w : Walker) : (w.project tm).length = 8 := by
  simp [Walker.project, Walker.walker_to_sensor, Walker.walker_to_world,
    Walker.world_to_sensor, Walker.create_bb_points]

lemma gbb_some (tm : TrigModel) (w : Walker) (bb : List BBPoint)
    (h : w.get_bounding_box tm = some bb) : bb = w.project tm := by
  rw [gbb_def] at h
  split at h
  · exact absurd h (by simp)
  · exact (Option.some.inj h).symm

/-- A produced 2D box always spans at least 17 pixels horizontally and
35 vertically (the strict `<` size check at source line 117). -/
lemma bb2d_size (tm : TrigModel) (w : Walker) (a b c d : ℤ)
    (h : w.get_2d_bounding_box tm = some ((a, b), (c, d))) :
    17 ≤ c - a ∧ 35 ≤ d - b := by
  rw [g2d_def] at h
  cases hg : w.get_bounding_box tm with
  | none => rw [hg] at h; exact absurd h (by simp)
  | some bb =>
    rw [hg] at h
    dsimp only at h
    split at h
    · exact absurd h (by simp)
    · split at h
      · exact absurd h (by simp)
      · rename_i hsz
        rw [Option.some.injEq, Prod.mk.injEq, Prod.mk.injEq, Prod.mk.injEq] at h
        obtain ⟨⟨ha, hb⟩, hc, hd⟩ := h
        subst ha hb hc hd
        omega

/-! ## Evaluation of the concrete instances -/

lemma get_matrix_tm0 (r : Rot) (l : Loc) :
    get_matrix tm0 r l = ⟨1, 0, 0, l.x, 0, 1, 0, l.y, 0, 0, 1, l.z, 0, 0, 0, 1⟩ := by
  norm_num [get_matrix, tm0]

lemma inv_translation (a b c : ℚ) :
    (Mat4.mk 1 0 0 a 0 1 0 b 0 0 1 c 0 0 0 1).inv
      = ⟨1, 0, 0, -a, 0, 1, 0, -b, 0, 0, 1, -c, 0, 0, 0, 1⟩ := by
  norm_num [Mat4.inv, Mat4.det, det3]

lemma mul_translation (a b c d e f : ℚ) :
    (Mat4.mk 1 0 0 a 0 1 0 b 0 0 1 c 0 0 0 1).mul
      (Mat4.mk 1 0 0 d 0 1 0 e 0 0 1 f 0 0 0 1)
      = ⟨1, 0, 0, d + a, 0, 1, 0, e + b, 0, 0, 1, f + c, 0, 0, 0, 1⟩ := by
  norm_num [Mat4.mul]

lemma apply_translation (a b c : ℚ) (v : Vec4) :
    (Mat4.mk 1 0 0 a 0 1 0 b 0 0 1 c 0 0 0 1).apply v
      = ⟨v.x + a * v.w, v.y + b * v.w, v.z + c * v.w, v.w⟩ := by
  norm_num [Mat4.apply]

lemma tm0_tan (x : ℚ) : tm0.tanHalfDeg x = 1 := rfl

/-- The projected corners of `wkA` (and of `wkD`, which projects to the
same pixel values under its own camera). -/
def bbRect : List BBPoint :=
  [⟨17, 35, 1⟩, ⟨17, 35, 1⟩, ⟨0, 35, 1⟩, ⟨0, 35, 1⟩,
   ⟨17, 0, 1⟩, ⟨17, 0, 1⟩, ⟨0, 0, 1⟩, ⟨0, 0, 1⟩]

/-- The projected corners of `wkB`: all beyond pixel 100000, spanning a
single pixel on each axis. -/
def bbFar : List BBPoint :=
  [⟨150001, 150001, 1⟩, ⟨150001, 150001, 1⟩, ⟨150000, 150001, 1⟩, ⟨150000, 150001, 1⟩,
   ⟨150001, 150000, 1⟩, ⟨150001, 150000, 1⟩, ⟨150000, 150000, 1⟩, ⟨150000, 150000, 1⟩]

/-- The projected corners of `wkC`: same pixel rectangle as `wkA` but
with every depth equal to `-1`. -/
def bbBehind : List BBPoint :=
  [⟨0, 0, -1⟩, ⟨0, 0, -1⟩, ⟨17, 0, -1⟩, ⟨17, 0, -1⟩,
   ⟨0, 35, -1⟩, ⟨0, 35, -1⟩, ⟨17, 35, -1⟩, ⟨17, 35, -1⟩]

lemma wkA_project : wkA.project tm0 = bbRect := by
  norm_num [Walker.project, Walker.walker_to_sensor, Walker.walker_to_world,
    Walker.world_to_sensor, Walker.create_bb_points, get_matrix_tm0, inv_translation,
    mul_translation, apply_translation, Mat3.apply, Camera.calibration, tm0_tan,
    wkA, cam1, bbRect]

lemma wkB_project : wkB.project tm0 = bbFar := by
  norm_num [Walker.project, Walker.walker_to_sensor, Walker.walker_to_world,
    Walker.world_to_sensor, Walker.create_bb_points, get_matrix_tm0, inv_translation,
    mul_translation, apply_translation, Mat3.apply, Camera.calibration, tm0_tan,
    wkB, cam1, bbFar]

lemma wkC_project : wkC.project tm0 = bbBehind := by
  norm_num [Walker.project, Walker.walker_to_sensor, Walker.walker_to_world,
    Walker.world_to_sensor, Walker.create_bb_points, get_matrix_tm0, inv_translation,
    mul_translation, apply_translation, Mat3.apply, Camera.calibration, tm0_tan,
    wkC, cam1, bbBehind]

lemma wkD_project : wkD.project tm0 = bbRect := by
  norm_num [Walker.project, Walker.walker_to_sensor, Walker.walker_to_world,
    Walker.world_to_sensor, Walker.create_bb_points, get_matrix_tm0, inv_translation,
    mul_translation, apply_translation, Mat3.apply, Camera.calibration, tm0_tan,
    wkD, cam2, bbRect]

lemma wkA_gbb : wkA.get_bounding_box tm0 = some bbRect := by
  rw [gbb_def, wkA_project]; decide

lemma wkB_gbb : wkB.get_bounding_box tm0 = some bbFar := by
  rw [gbb_def, wkB_project]; decide

lemma wkC_gbb : wkC.get_bounding_box tm0 = some bbBehind := by
  rw [gbb_def, wkC_project]; decide

lemma wkD_gbb : wkD.get_bounding_box tm0 = some bbRect := by
  rw [gbb_def, wkD_project]; decide

lemma wkA_bb2d : wkA.get_2d_bounding_box tm0 = some ((0, 0), (17, 35)) := by
  rw [g2d_def, wkA_gbb]; decide

lemma wkB_bb2d : wkB.get_2d_bounding_box tm0 = some ((100000, 100000), (150001, 150001)) := by
  rw [g2d_def, wkB_gbb]; decide

lemma wkC_bb2d : wkC.get_2d_bounding_box tm0 = some ((0, 0), (17, 35)) := by
  rw [g2d_def, wkC_gbb]; decide

lemma wkD_bb2d : wkD.get_2d_bounding_box tm0 = some ((0, 0), (17, 35)) := by
  rw [g2d_def, wkD_gbb]; decide

/-! ## Invariants of the pixel scan and of the occlusion loop -/

section ScanLemmas

variable (sem : ℤ → ℤ → ℤ × ℤ × ℤ) (aid p q : ℤ)

/-- A single scan step either leaves pixel `(p, q)` unchanged, or claims
it: the pixel was unassigned, the semantic raster marks it pedestrian,
and its new owner is `aid`. -/
lemma scanPixel_inst_cases (y x : ℤ) (st : ScanState) :
    (scanPixel sem aid y st x).inst p q = st.inst p q ∨
      (st.inst p q = -1 ∧ sem p q = ped ∧ (scanPixel sem aid y st x).inst p q = aid) := by
  unfold scanPixel
  split
  · rename_i hc
    by_cases hpq : p = y ∧ q = x
    · obtain ⟨rfl, rfl⟩ := hpq
      exact Or.inr ⟨hc.1, hc.2, by simp⟩
    · left; simp [hpq]
  · left; rfl

/-- The scan-step alternative is preserved by folding any step function
that satisfies it. -/
lemma foldl_inst_cases {ι : Type} (g : ScanState → ι → ScanState)
    (hg : ∀ (st : ScanState) (i : ι), (g st i).inst p q = st.inst p q ∨
      (st.inst p q = -1 ∧ sem p q = ped ∧ (g st i).inst p q = aid)) :
    ∀ (l : List ι) (st : ScanState),
      (l.foldl g st).inst p q = st.inst p q ∨
        (st.inst p q = -1 ∧ sem p q = ped ∧ (l.foldl g st).inst p q = aid)
  | [], st => Or.inl rfl
  | i :: l, st => by
    rcases hg st i with h1 | ⟨h1, h2, h3⟩
    · rcases foldl_inst_cases g hg l (g st i) with h | ⟨ha, hb, hc⟩
      · exact Or.inl (by rw [List.foldl_cons, h, h1])
      · exact Or.inr ⟨h1 ▸ ha, hb, hc⟩
    · rcases foldl_inst_cases g hg l (g st i) with h | ⟨ha, hb, hc⟩
      · exact Or.inr ⟨h1, h2, by rw [List.foldl_cons, h, h3]⟩
      · exact Or.inr ⟨h1, h2, by rw [List.foldl_cons, hc]⟩

/-- The whole rectangle scan of one walker either leaves pixel `(p, q)`
as it was, or claims it for `aid` from the unassigned state on a
pedestrian pixel. -/
lemma scanWalker_inst_cases (himg wimg minx miny maxx maxy : ℤ) (inst : ℤ → ℤ → ℤ) :
    (scanWalker sem himg wimg aid minx miny maxx maxy inst).inst p q = inst p q ∨
      (inst p q = -1 ∧ sem p q = ped ∧
        (scanWalker sem himg wimg aid minx miny maxx maxy inst).inst p q = aid) := by
  unfold scanWalker
  exact foldl_inst_cases sem aid p q _
    (fun st y => foldl_inst_cases sem aid p q _ (fun st' x => scanPixel_inst_cases sem aid p q y x st') _ st)
    _ ⟨inst, 0⟩

/-- An already-assigned pixel is never touched by a scan. -/
lemma scanWalker_preserve (himg wimg minx miny maxx maxy : ℤ) (inst : ℤ → ℤ → ℤ)
    (h : inst p q ≠ -1) :
    (scanWalker sem himg wimg aid minx miny maxx maxy inst).inst p q = inst p q := by
  rcases scanWalker_inst_cases sem aid p q himg wimg minx miny maxx maxy inst with h1 | ⟨h1, _, _⟩
  · exact h1
  · exact absurd h1 h

/-- A pixel changed by a scan was unassigned and pedestrian, and is now
owned by the scanning actor. -/
lemma scanWalker_changed (himg wimg minx miny maxx maxy : ℤ) (inst : ℤ → ℤ → ℤ)
    (h : (scanWalker sem himg wimg aid minx miny maxx maxy inst).inst p q ≠ inst p q) :
    inst p q = -1 ∧ sem p q = ped ∧
      (scanWalker sem himg wimg aid minx miny maxx maxy inst).inst p q = aid := by
  rcases scanWalker_inst_cases sem aid p q himg wimg minx miny maxx maxy inst with h1 | h1
  · exact absurd h1 h
  · exact h1

end ScanLemmas

/-- The instance buffer returned by one occlusion-loop iteration, when
the walker has a 2D box: it is the scan result whether or not the
detection is accepted. -/
lemma processWalker_fst_some (tm : TrigModel) (sem : ℤ → ℤ → ℤ × ℤ × ℤ)
    (himg wimg fr : ℤ) (inst : ℤ → ℤ → ℤ) (w : Walker) (mnx mny mxx mxy : ℤ)
    (hbb : w.get_2d_bounding_box tm = some ((mnx, mny), (mxx, mxy))) :
    (processWalker tm sem himg wimg fr inst w).1 =
      (scanWalker sem himg wimg w.id mnx mny mxx mxy inst).inst := by
  rw [processWalker_def, hbb]
  dsimp only
  split <;> rfl

/-- One occlusion-loop iteration either leaves pixel `(p, q)` unchanged
or claims it for the walker from the unassigned state on a pedestrian
pixel. -/
lemma processWalker_inst_cases (tm : TrigModel) (sem : ℤ → ℤ → ℤ × ℤ × ℤ)
    (himg wimg fr : ℤ) (inst : ℤ → ℤ → ℤ) (w : Walker) (p q : ℤ) :
    (processWalker tm sem himg wimg fr inst w).1 p q = inst p q ∨
      (inst p q = -1 ∧ sem p q = ped ∧
        (processWalker tm sem himg wimg fr inst w).1 p q = w.id) := by
  cases hbb : w.get_2d_bounding_box tm with
  | none => left; rw [processWalker_def, hbb]
  | some r =>
    obtain ⟨⟨mnx, mny⟩, mxx, mxy⟩ := r
    rw [processWalker_fst_some tm sem himg wimg fr inst w mnx mny mxx mxy hbb]
    exact scanWalker_inst_cases sem w.id p q himg wimg mnx mny mxx mxy inst

/-- Over a whole walker list, pixel `(p, q)` is either untouched, or was
claimed starting from the unassigned state on a pedestrian pixel. -/
lemma processWalkers_inst_cases (tm : TrigModel) (sem : ℤ → ℤ → ℤ × ℤ × ℤ)
    (himg wimg fr : ℤ) (p q : ℤ) :
    ∀ (ws : List Walker) (inst : ℤ → ℤ → ℤ),
      (processWalkers tm sem himg wimg fr ws inst).1 p q = inst p q ∨
        (inst p q = -1 ∧ sem p q = ped)
  | [], _ => Or.inl rfl
  | w :: ws, inst => by
    rcases processWalker_inst_cases tm sem himg wimg fr inst w p q with h1 | ⟨h1, h2, _⟩
    · rcases processWalkers_inst_cases tm sem himg wimg fr p q ws
        (processWalker tm sem himg wimg fr inst w).1 with h | ⟨ha, hb⟩
      · exact Or.inl (by rw [processWalkers, h, h1])
      · exact Or.inr ⟨h1 ▸ ha, hb⟩
    · exact Or.inr ⟨h1, h2⟩

/-- An assigned pixel keeps its owner through the processing of any
further walkers (no later walker can reclaim it). -/
lemma processWalkers_preserve (tm : TrigModel) (sem : ℤ → ℤ → ℤ × ℤ × ℤ)
    (himg wimg fr : ℤ) (p q : ℤ) :
    ∀ (ws : List Walker) (inst : ℤ → ℤ → ℤ), inst p q ≠ -1 →
      (processWalkers tm sem himg wimg fr ws inst).1 p q = inst p q
  | [], _, _ => rfl
  | w :: ws, inst, h => by
    rcases processWalker_inst_cases tm sem himg wimg fr inst w p q with h1 | ⟨h1, _, _⟩
    · rw [processWalkers, processWalkers_preserve tm sem himg wimg fr p q ws _ (by rw [h1]; exact h), h1]
    · exact absurd h1 h

/-! ## Minimum and maximum of a pixel-coordinate list

`lmin`/`lmax` are spec-side definitions: they express the words of the
specification — "the axis-aligned rectangle over the 8 pixel corners" —
as the true minimum and maximum over a (nonempty) list, to be compared
with the accumulator loop of `Walker.get_2d_bounding_box`, whose
accumulators start at `100000` and `0`. -/

/-- Spec-side: minimum of a nonempty list of integers (`0` on `[]`,
never used). -/
def lmin : List ℤ → ℤ
  | [] => 0
  | x :: xs => xs.foldl min x

/-- Spec-side: maximum of a nonempty list of integers (`0` on `[]`,
never used). -/
def lmax : List ℤ → ℤ
  | [] => 0
  | x :: xs => xs.foldl max x

lemma foldl_min_le_init : ∀ (xs : List ℤ) (a : ℤ), xs.foldl min a ≤ a
  | [], a => le_refl a
  | x :: xs, a => le_trans (foldl_min_le_init xs (min a x)) (min_le_left a x)

lemma foldl_min_le_mem : ∀ (xs : List ℤ) (a y : ℤ), y ∈ xs → xs.foldl min a ≤ y
  | [], _, _, hy => absurd hy (List.not_mem_nil _)
  | x :: xs, a, y, hy => by
    rcases List.mem_cons.mp hy with rfl | hy
    · exact le_trans (foldl_min_le_init xs (min a y)) (min_le_right a y)
    · exact foldl_min_le_mem xs (min a x) y hy

lemma foldl_min_acc : ∀ (xs : List ℤ) (a b : ℤ), xs.foldl min (min a b) = min a (xs.foldl min b)
  | [], _, _ => rfl
  | x :: xs, a, b => by
    rw [List.foldl_cons, List.foldl_cons, min_assoc, foldl_min_acc xs a (min b x)]

lemma foldl_max_init_le : ∀ (xs : List ℤ) (a : ℤ), a ≤ xs.foldl max a
  | [], a => le_refl a
  | x :: xs, a => le_trans (le_max_left a x) (foldl_max_init_le xs (max a x))

lemma foldl_max_mem_le : ∀ (xs : List ℤ) (a y : ℤ), y ∈ xs → y ≤ xs.foldl max a
  | [], _, _, hy => absurd hy (List.not_mem_nil _)
  | x :: xs, a, y, hy => by
    rcases List.mem_cons.mp hy with rfl | hy
    · exact le_trans (le_max_right a y) (foldl_max_init_le xs (max a y))
    · exact foldl_max_mem_le xs (max a x) y hy

lemma foldl_max_acc : ∀ (xs : List ℤ) (a b : ℤ), xs.foldl max (max a b) = max a (xs.foldl max b)
  | [], _, _ => rfl
  | x :: xs, a, b => by
    rw [List.foldl_cons, List.foldl_cons, max_assoc, foldl_max_acc xs a (max b x)]

lemma lmin_le (l : List ℤ) (y : ℤ) (hy : y ∈ l) : lmin l ≤ y := by
  cases l with
  | nil => exact absurd hy (List.not_mem_nil _)
  | cons x xs =>
    rcases List.mem_cons.mp hy with rfl | hy
    · exact foldl_min_le_init xs y
    · exact foldl_min_le_mem xs x y hy

lemma le_lmax (l : List ℤ) (y : ℤ) (hy : y ∈ l) : y ≤ lmax l := by
  cases l with
  | nil => exact absurd hy (List.not_mem_nil _)
  | cons x xs =>
    rcases List.mem_cons.mp hy with rfl | hy
    · exact foldl_max_init_le xs y
    · exact foldl_max_mem_le xs x y hy

/-- When some element is at most the initial accumulator, the min fold
computes the true minimum. -/
lemma foldl_min_absorb (l : List ℤ) (a : ℤ) (h : ∃ y ∈ l, y ≤ a) :
    l.foldl min a = lmin l := by
  cases l with
  | nil => obtain ⟨y, hy, _⟩ := h; exact absurd hy (List.not_mem_nil _)
  | cons x xs =>
    have : List.foldl min a (x :: xs) = min a (xs.foldl min x) := by
      rw [List.foldl_cons, ← foldl_min_acc]
    rw [this, lmin]
    obtain ⟨y, hy, hya⟩ := h
    exact min_eq_right (le_trans (lmin_le (x :: xs) y hy) hya)

/-- When some element is at least the initial accumulator, the max fold
computes the true maximum. -/
lemma foldl_max_absorb (l : List ℤ) (a : ℤ) (h : ∃ y ∈ l, a ≤ y) :
    l.foldl max a = lmax l := by
  cases l with
  | nil => obtain ⟨y, hy, _⟩ := h; exact absurd hy (List.not_mem_nil _)
  | cons x xs =>
    have : List.foldl max a (x :: xs) = max a (xs.foldl max x) := by
      rw [List.foldl_cons, ← foldl_max_acc]
    rw [this, lmax]
    obtain ⟨y, hy, hya⟩ := h
    exact max_eq_right (le_trans hya (le_lmax (x :: xs) y hy))

/-- Componentwise reading of the four-accumulator loop of
`Walker.get_2d_bounding_box`. -/
lemma cornerFold_foldl : ∀ (pts : List (ℤ × ℤ)) (st : ℤ × ℤ × ℤ × ℤ),
    pts.foldl cornerFold st =
      (pts.foldl (fun m r => if r.1 < m then r.1 else m) st.1,
       pts.foldl (fun m r => if r.1 > m then r.1 else m) st.2.1,
       pts.foldl (fun m r => if r.2 < m then r.2 else m) st.2.2.1,
       pts.foldl (fun m r => if r.2 > m then r.2 else m) st.2.2.2)
  | [], _ => rfl
  | r :: pts, st => by
    rw [List.foldl_cons, cornerFold_foldl pts (cornerFold st r)]
    rfl

lemma foldl_if_min (xs : List ℤ) (a : ℤ) :
    xs.foldl (fun m x => if x < m then x else m) a = xs.foldl min a := by
  induction xs generalizing a with
  | nil => rfl
  | cons x xs ih =>
    rw [List.foldl_cons, List.foldl_cons, ih]
    congr 1
    omega

lemma foldl_if_max (xs : List ℤ) (a : ℤ) :
    xs.foldl (fun m x => if x > m then x else m) a = xs.foldl max a := by
  induction xs generalizing a with
  | nil => rfl
  | cons x xs ih =>
    rw [List.foldl_cons, List.foldl_cons, ih]
    congr 1
    omega

/-! ## Claims -/

/-- C1, counterexample: a walker all of whose 8 projected corner depths
are `≤ 0` (here `-1`) is **not** rejected by `Walker.get_bounding_box` —
it returns the projected corners, and a 2D rectangle is even produced.
This refutes the claim that all-corner depth `≤ 0` forces rejection. -/
theorem C1_counterexample :
    (∀ p ∈ wkC.project tm0, p.d ≤ 0) ∧
      wkC.get_bounding_box tm0 = some (wkC.project tm0) ∧
      wkC.get_2d_bounding_box tm0 = some ((0, 0), (17, 35)) := by
  refine ⟨by simp only [wkC_project]; decide, ?_, wkC_bb2d⟩
  rw [wkC_gbb, wkC_project]

/-- C1 (amended): for every actor and camera for which all 8 projected
corner depths are `≤ 0`, all depths are then also `< 60`, so the
combined check of `Walker.get_bounding_box` does **not** reject: the
projection returns all 8 projected corners.  (Rejection happens only
when some depth is `≤ 0` **and** some depth is `≥ 60`.) -/
theorem C1_depth_check_amended (tm : TrigModel) (w : Walker)
    (hdep : ∀ p ∈ w.project tm, p.d ≤ 0) :
    w.get_bounding_box tm = some (w.project tm) := by
  have h2 : ((w.project tm).all fun p => decide (p.d < 60)) = true := by
    simp only [List.all_eq_true, decide_eq_true_eq]
    intro p hp
    linarith [hdep p hp]
  rw [gbb_def, h2]
  simp

/-- Witness for C1: the concrete behind-camera walker `wkC`. -/
theorem C1_witness :
    (∀ p ∈ wkC.project tm0, p.d ≤ 0) ∧
      wkC.get_bounding_box tm0 = some (wkC.project tm0) :=
  ⟨by simp only [wkC_project]; decide,
   C1_depth_check_amended tm0 wkC (by simp only [wkC_project]; decide)⟩

/-- C2: an actor whose rectangle reaches the occlusion stage is accepted
(drawn and, when saving, written — modelled as the emitted record) iff
`10 * claimed ≥ 2 * total`, where `claimed` is the scan counter and
`total = (max_x-min_x+1)*(max_y-min_y+1)`; in particular a fraction of
exactly 0.2 is accepted and anything strictly below 0.2 is rejected. -/
theorem C2_visibility_threshold (tm : TrigModel) (sem : ℤ → ℤ → ℤ × ℤ × ℤ)
    (himg wimg fr : ℤ) (inst : ℤ → ℤ → ℤ) (w : Walker) (mnx mny mxx mxy : ℤ)
    (hbb : w.get_2d_bounding_box tm = some ((mnx, mny), (mxx, mxy))) :
    (processWalker tm sem himg wimg fr inst w).2 ≠ none ↔
      2 * ((mxx - mnx + 1) * (mxy - mny + 1)) ≤
        10 * (scanWalker sem himg wimg w.id mnx mny mxx mxy inst).cnt := by
  obtain ⟨h1, h2⟩ := bb2d_size tm w mnx mny mxx mxy hbb
  rw [processWalker_def, hbb]
  dsimp only
  set T := (mxx - mnx + 1) * (mxy - mny + 1) with hT
  have hTpos : 0 < T := mul_pos (by omega) (by omega)
  set C := (scanWalker sem himg wimg w.id mnx mny mxx mxy inst).cnt with hC
  split
  · rename_i hc
    simp only [ne_eq, not_true_eq_false, false_iff]
    omega
  · rename_i hc
    simp only [ne_eq, reduceCtorEq, not_false_eq_true, true_iff]
    omega

set_option maxRecDepth 40000 in
/-- Witness for C2: the concrete walker `wkD` on an everywhere-pedestrian
raster claims 136 of its 648 rectangle pixels (fraction ≈ 0.21 ≥ 0.2)
and is accepted. -/
theorem C2_witness :
    wkD.get_2d_bounding_box tm0 = some ((0, 0), (17, 35)) ∧
      (processWalker tm0 semP 8 17 1 initInstance wkD).2 ≠ none :=
  ⟨wkD_bb2d,
   (C2_visibility_threshold tm0 semP 8 17 1 initInstance wkD 0 0 17 35 wkD_bb2d).mpr
     (by decide)⟩

/-- C3, counterexample: all corners of `wkB` project beyond pixel
100000, so the loop accumulators (initialised to 100000/0) do not
compute the true corner rectangle: the true axis-aligned rectangle over
its 8 pixel corners is 1×1 — far below 17×35 — yet a 2D box is
produced.  This refutes "rectangles smaller than 17×35 are always
rejected". -/
theorem C3_counterexample :
    wkB.get_2d_bounding_box tm0 = some ((100000, 100000), (150001, 150001)) ∧
      lmax ((wkB.project tm0).map fun p => pyInt p.u) -
        lmin ((wkB.project tm0).map fun p => pyInt p.u) < 17 ∧
      lmax ((wkB.project tm0).map fun p => pyInt p.v) -
        lmin ((wkB.project tm0).map fun p => pyInt p.v) < 35 := by
  refine ⟨wkB_bb2d, ?_, ?_⟩ <;> (simp only [wkB_project]; decide)

lemma foldl_pairs_min_fst (l : List (ℤ × ℤ)) (a : ℤ) :
    l.foldl (fun m r => if r.1 < m then r.1 else m) a = (l.map Prod.fst).foldl min a := by
  induction l generalizing a with
  | nil => rfl
  | cons r l ih =>
    rw [List.foldl_cons, List.map_cons, List.foldl_cons, ih]
    congr 1
    omega

lemma foldl_pairs_max_fst (l : List (ℤ × ℤ)) (a : ℤ) :
    l.foldl (fun m r => if r.1 > m then r.1 else m) a = (l.map Prod.fst).foldl max a := by
  induction l generalizing a with
  | nil => rfl
  | cons r l ih =>
    rw [List.foldl_cons, List.map_cons, List.foldl_cons, ih]
    congr 1
    omega

lemma foldl_pairs_min_snd (l : List (ℤ × ℤ)) (a : ℤ) :
    l.foldl (fun m r => if r.2 < m then r.2 else m) a = (l.map Prod.snd).foldl min a := by
  induction l generalizing a with
  | nil => rfl
  | cons r l ih =>
    rw [List.foldl_cons, List.map_cons, List.foldl_cons, ih]
    congr 1
    omega

lemma foldl_pairs_max_snd (l : List (ℤ × ℤ)) (a : ℤ) :
    l.foldl (fun m r => if r.2 > m then r.2 else m) a = (l.map Prod.snd).foldl max a := by
  induction l generalizing a with
  | nil => rfl
  | cons r l ih =>
    rw [List.foldl_cons, List.map_cons, List.foldl_cons, ih]
    congr 1
    omega

/-- Python `int()` of a nonnegative rational is nonnegative. -/
lemma pyInt_nonneg (q : ℚ) (h : 0 ≤ q) : 0 ≤ pyInt q :=
  Int.tdiv_nonneg (Rat.num_nonneg.mpr h) (Int.natCast_nonneg q.den)

/-- C3 (amended): for an actor passing the depth and corner checks, when
additionally some corner pixel has `u ≤ 100000` and some has
`v ≤ 100000` (true of every box intersecting a real image), the
accumulator loop computes the true axis-aligned rectangle over the 8
pixel corners, and the box is rejected exactly when its width is `< 17`
or its height `< 35` (so exactly 17×35 passes).  Without that proviso
the min accumulators stay clamped at their initialiser 100000 and an
undersized box can be accepted (see the counterexample). -/
theorem C3_size_check_amended (tm : TrigModel) (w : Walker) (bb : List BBPoint)
    (hbb : w.get_bounding_box tm = some bb)
    (hnn : ∀ p ∈ bb, 0 ≤ p.u ∧ 0 ≤ p.v)
    (hx : ∃ p ∈ bb, pyInt p.u ≤ 100000)
    (hy : ∃ p ∈ bb, pyInt p.v ≤ 100000) :
    w.get_2d_bounding_box tm = none ↔
      lmax (bb.map fun p => pyInt p.u) - lmin (bb.map fun p => pyInt p.u) < 17 ∨
      lmax (bb.map fun p => pyInt p.v) - lmin (bb.map fun p => pyInt p.v) < 35 := by
  have hlen : bb.length = 8 := by rw [gbb_some tm w bb hbb]; exact project_length tm w
  have hne : bb ≠ [] := by intro h; rw [h] at hlen; simp at hlen
  obtain ⟨p0, hp0⟩ : ∃ p, p ∈ bb := by
    cases bb with
    | nil => exact absurd rfl hne
    | cons a l => exact ⟨a, List.mem_cons_self a l⟩
  have hfilter : (bb.filter fun p => decide (p.u ≥ 0) && decide (p.v ≥ 0)) = bb :=
    List.filter_eq_self.mpr fun p hp => by
      simp only [Bool.and_eq_true, decide_eq_true_eq, ge_iff_le]
      exact ⟨(hnn p hp).1, (hnn p hp).2⟩
  have hminx : ((bb.map fun p => (pyInt p.u, pyInt p.v)).map Prod.fst).foldl min 100000
      = lmin (bb.map fun p => pyInt p.u) := by
    rw [List.map_map]
    refine foldl_min_absorb _ _ ?_
    obtain ⟨p, hp, hple⟩ := hx
    exact ⟨pyInt p.u, List.mem_map.mpr ⟨p, hp, rfl⟩, hple⟩
  have hminy : ((bb.map fun p => (pyInt p.u, pyInt p.v)).map Prod.snd).foldl min 100000
      = lmin (bb.map fun p => pyInt p.v) := by
    rw [List.map_map]
    refine foldl_min_absorb _ _ ?_
    obtain ⟨p, hp, hple⟩ := hy
    exact ⟨pyInt p.v, List.mem_map.mpr ⟨p, hp, rfl⟩, hple⟩
  have hmaxx : ((bb.map fun p => (pyInt p.u, pyInt p.v)).map Prod.fst).foldl max 0
      = lmax (bb.map fun p => pyInt p.u) := by
    rw [List.map_map]
    refine foldl_max_absorb _ _ ?_
    exact ⟨pyInt p0.u, List.mem_map.mpr ⟨p0, hp0, rfl⟩, pyInt_nonneg _ (hnn p0 hp0).1⟩
  have hmaxy : ((bb.map fun p => (pyInt p.u, pyInt p.v)).map Prod.snd).foldl max 0
      = lmax (bb.map fun p => pyInt p.v) := by
    rw [List.map_map]
    refine foldl_max_absorb _ _ ?_
    exact ⟨pyInt p0.v, List.mem_map.mpr ⟨p0, hp0, rfl⟩, pyInt_nonneg _ (hnn p0 hp0).2⟩
  rw [g2d_def, hbb]
  dsimp only
  rw [hfilter]
  have hplen : ¬ ((bb.map fun p => (pyInt p.u, pyInt p.v)).length ≠ 8) := by
    simp [hlen]
  rw [if_neg hplen, cornerFold_foldl]
  dsimp only
  rw [foldl_pairs_min_fst, foldl_pairs_max_fst, foldl_pairs_min_snd, foldl_pairs_max_snd,
    hminx, hminy, hmaxx, hmaxy]
  split
  · rename_i hc
    exact iff_of_true rfl hc
  · rename_i hc
    exact iff_of_false (by simp) hc

/-- Witness for C3: `wkA`, whose corner rectangle is exactly 17×35 and
is accepted by the size check. -/
theorem C3_witness :
    wkA.get_bounding_box tm0 = some bbRect ∧
      (wkA.get_2d_bounding_box tm0 = none ↔
        lmax (bbRect.map fun p => pyInt p.u) - lmin (bbRect.map fun p => pyInt p.u) < 17 ∨
        lmax (bbRect.map fun p => pyInt p.v) - lmin (bbRect.map fun p => pyInt p.v) < 35) :=
  ⟨wkA_gbb,
   C3_size_check_amended tm0 wkA bbRect wkA_gbb (by decide) (by decide) (by decide)⟩

/-- C4: a 2D rectangle is produced only if all 8 corners project to
non-negative pixel coordinates (0 itself accepted), and if even one
corner has a negative `u` or `v` the whole box is discarded — no partial
or clipped rectangle is ever produced. -/
theorem C4_corner_filter (tm : TrigModel) (w : Walker) (bb : List BBPoint)
    (hbb : w.get_bounding_box tm = some bb) :
    ((∃ r, w.get_2d_bounding_box tm = some r) → ∀ p ∈ bb, 0 ≤ p.u ∧ 0 ≤ p.v) ∧
      ((∃ p ∈ bb, p.u < 0 ∨ p.v < 0) → w.get_2d_bounding_box tm = none) := by
  have hlen : bb.length = 8 := by rw [gbb_some tm w bb hbb]; exact project_length tm w
  have hneg : (∃ p ∈ bb, p.u < 0 ∨ p.v < 0) → w.get_2d_bounding_box tm = none := by
    rintro ⟨p, hp, hpv⟩
    rw [g2d_def, hbb]
    dsimp only
    rw [if_pos]
    have hflt : (bb.filter fun r => decide (r.u ≥ 0) && decide (r.v ≥ 0)).length < bb.length :=
      List.length_filter_lt_length_iff_exists.mpr
        ⟨p, hp, by
          simp only [Bool.and_eq_true, decide_eq_true_eq, ge_iff_le, not_and_or, not_le]
          exact hpv.imp id id⟩
    simp only [List.length_map]
    omega
  refine ⟨?_, hneg⟩
  rintro ⟨r, hr⟩ p hp
  by_contra hc
  have hor : p.u < 0 ∨ p.v < 0 := by
    rcases not_and_or.mp hc with h | h
    · exact Or.inl (lt_of_not_le h)
    · exact Or.inr (lt_of_not_le h)
  rw [hneg ⟨p, hp, hor⟩] at hr
  exact absurd hr (by simp)

/-- Witness for C4: `wkA` produces a rectangle, so all its corners have
non-negative pixel coordinates. -/
theorem C4_witness :
    wkA.get_bounding_box tm0 = some bbRect ∧ ∀ p ∈ bbRect, 0 ≤ p.u ∧ 0 ≤ p.v :=
  ⟨wkA_gbb, (C4_corner_filter tm0 wkA bbRect wkA_gbb).1 ⟨((0, 0), (17, 35)), wkA_bb2d⟩⟩

/-- C5: invariant of the per-frame instance buffer — a pixel's owner
changes during a frame only if, at scan time, it was unassigned (`-1`)
and the semantic raster classifies it as the pedestrian colour
`(60, 20, 220)`. -/
theorem C5_claim_invariant (tm : TrigModel) (sem : ℤ → ℤ → ℤ × ℤ × ℤ)
    (himg wimg fr : ℤ) (ws : List Walker) (inst : ℤ → ℤ → ℤ) (y x : ℤ)
    (hch : (processWalkers tm sem himg wimg fr ws inst).1 y x ≠ inst y x) :
    inst y x = -1 ∧ sem y x = ped := by
  rcases processWalkers_inst_cases tm sem himg wimg fr y x ws inst with h | h
  · exact absurd h hch
  · exact h

/-- Witness for C5: `wkA` claims the single pedestrian pixel (0,0) of a
fresh buffer. -/
theorem C5_witness :
    (processWalkers tm0 sem1 1 1 1 [wkA] initInstance).1 0 0 ≠ initInstance 0 0 ∧
      initInstance 0 0 = -1 ∧ sem1 0 0 = ped := by
  have h2 : (processWalkers tm0 sem1 1 1 1 [wkA] initInstance).1
      = (processWalker tm0 sem1 1 1 1 initInstance wkA).1 := by
    simp [processWalkers]
  have h1 : (processWalkers tm0 sem1 1 1 1 [wkA] initInstance).1 0 0 = 7 := by
    rw [h2, processWalker_fst_some tm0 sem1 1 1 1 initInstance wkA 0 0 17 35 wkA_bb2d]
    decide
  have hch : (processWalkers tm0 sem1 1 1 1 [wkA] initInstance).1 0 0 ≠ initInstance 0 0 := by
    rw [h1]; decide
  exact ⟨hch, C5_claim_invariant tm0 sem1 1 1 1 [wkA] initInstance 0 0 hch⟩

/-- C6: the occlusion loop processes actors in ascending order of
squared planar distance (`sortWalkers` sorts by `Walker.get_distance`,
a permutation of the input), and once a pixel is assigned (owner `≠ -1`)
no later-processed actor ever changes it. -/
theorem C6_nearest_first (tm : TrigModel) (sem : ℤ → ℤ → ℤ × ℤ × ℤ)
    (himg wimg fr : ℤ) :
    (∀ ws : List Walker,
        (sortWalkers ws).Pairwise (fun a b => a.get_distance ≤ b.get_distance) ∧
          (sortWalkers ws).Perm ws) ∧
      (∀ (ws : List Walker) (inst : ℤ → ℤ → ℤ) (y x : ℤ), inst y x ≠ -1 →
        (processWalkers tm sem himg wimg fr ws inst).1 y x = inst y x) := by
  constructor
  · intro ws
    constructor
    · have htrans : ∀ a b c : Walker,
          decide (a.get_distance ≤ b.get_distance) = true →
          decide (b.get_distance ≤ c.get_distance) = true →
          decide (a.get_distance ≤ c.get_distance) = true := fun a b c hab hbc => by
        simp only [decide_eq_true_eq] at hab hbc ⊢
        exact le_trans hab hbc
      have htotal : ∀ a b : Walker,
          (decide (a.get_distance ≤ b.get_distance) ||
            decide (b.get_distance ≤ a.get_distance)) = true := fun a b => by
        simp only [Bool.or_eq_true, decide_eq_true_eq]
        exact le_total _ _
      have h := List.sorted_mergeSort htrans htotal ws
      exact h.imp fun hab => of_decide_eq_true hab
    · exact List.mergeSort_perm ws _
  · intro ws inst y x h
    exact processWalkers_preserve tm sem himg wimg fr y x ws inst h

/-- Witness for C6: pixel (0,0), owned by actor 5, survives the
processing of `wkA` unchanged. -/
theorem C6_witness :
    inst5 0 0 ≠ -1 ∧ (processWalkers tm0 sem1 1 1 1 [wkA] inst5).1 0 0 = inst5 0 0 :=
  ⟨by decide, (C6_nearest_first tm0 sem1 1 1 1).2 [wkA] inst5 0 0 (by decide)⟩

/-- C7: when an actor with a 2D box is rejected at the visibility check,
no record is emitted, yet every pixel its scan claimed keeps that
actor's id in the instance buffer, and keeps it through the processing
of all remaining (farther) walkers of the frame — no rollback on
rejection. -/
theorem C7_no_rollback (tm : TrigModel) (sem : ℤ → ℤ → ℤ × ℤ × ℤ)
    (himg wimg fr : ℤ) (inst : ℤ → ℤ → ℤ) (w : Walker) (mnx mny mxx mxy : ℤ)
    (hbb : w.get_2d_bounding_box tm = some ((mnx, mny), (mxx, mxy)))
    (hrej : 10 * (scanWalker sem himg wimg w.id mnx mny mxx mxy inst).cnt <
      2 * ((mxx - mnx + 1) * (mxy - mny + 1))) :
    (processWalker tm sem himg wimg fr inst w).2 = none ∧
      ∀ y x, (scanWalker sem himg wimg w.id mnx mny mxx mxy inst).inst y x ≠ inst y x →
        (processWalker tm sem himg wimg fr inst w).1 y x = w.id ∧
          ∀ ws, (processWalkers tm sem himg wimg fr ws
            (processWalker tm sem himg wimg fr inst w).1).1 y x = w.id := by
  obtain ⟨h1, h2⟩ := bb2d_size tm w mnx mny mxx mxy hbb
  have hrejnone : (processWalker tm sem himg wimg fr inst w).2 = none := by
    rw [processWalker_def, hbb]
    dsimp only
    rw [if_pos ⟨mul_pos (by omega) (by omega), hrej⟩]
  refine ⟨hrejnone, fun y x hch => ?_⟩
  obtain ⟨hm1, _hped, hval⟩ := scanWalker_changed sem w.id y x himg wimg mnx mny mxx mxy inst hch
  have hfst := processWalker_fst_some tm sem himg wimg fr inst w mnx mny mxx mxy hbb
  have hid : w.id ≠ -1 := by
    rw [hm1] at hch
    rw [← hval]
    exact hch
  refine ⟨by rw [hfst]; exact hval, fun ws => ?_⟩
  rw [hfst]
  rw [processWalkers_preserve tm sem himg wimg fr y x ws _ (by rw [hval]; exact hid)]
  exact hval

/-- Witness for C7: `wkA` is rejected (1 of 648 pixels visible) but its
claimed pixel (0,0) stays owned by id 7 in the buffer. -/
theorem C7_witness :
    (10 * (scanWalker sem1 1 1 wkA.id 0 0 17 35 initInstance).cnt <
        2 * ((17 - 0 + 1) * (35 - 0 + 1))) ∧
      (processWalker tm0 sem1 1 1 1 initInstance wkA).2 = none ∧
      (processWalker tm0 sem1 1 1 1 initInstance wkA).1 0 0 = wkA.id := by
  have h := C7_no_rollback tm0 sem1 1 1 1 initInstance wkA 0 0 17 35 wkA_bb2d (by decide)
  exact ⟨by decide, h.1, (h.2 0 0 (by decide)).1⟩

/-- The walkers accumulated from well-formed actor lines survive a
trailing short line and anything after it. -/
lemma parseWalkers_good (cam : Camera) :
    ∀ (good : List (List ℚ)) (bad : List ℚ) (rest : List (List ℚ)),
      (∀ l ∈ good, 14 ≤ l.length ∧ (l.getD 1 0).den = 1) → bad.length < 10 →
      ∃ ws, parseWalkers cam (good ++ bad :: rest) = some ws ∧
        parseWalkers cam good = some ws ∧ ws.length = good.length
  | [], bad, rest, _, hbad =>
    ⟨[], by rw [List.nil_append]; unfold parseWalkers; rw [if_pos hbad], rfl, rfl⟩
  | l :: ls, bad, rest, hgood, hbad => by
    obtain ⟨hlen, hden⟩ := hgood l (List.mem_cons_self l ls)
    obtain ⟨ws, hp1, hp2, hp3⟩ := parseWalkers_good cam ls bad rest
      (fun l' hl' => hgood l' (List.mem_cons_of_mem _ hl')) hbad
    have hnot : ¬ (l.length < 10) := by omega
    have hmk : mkWalker l cam = some (mkWalkerRec l cam) := by
      unfold mkWalker
      rw [if_pos ⟨hlen, hden⟩]
    refine ⟨mkWalkerRec l cam :: ws, ?_, ?_, by simp [hp3]⟩
    · rw [List.cons_append]
      unfold parseWalkers
      rw [if_neg hnot, hmk]
      dsimp only
      rw [hp1]
      rfl
    · unfold parseWalkers
      rw [if_neg hnot, hmk]
      dsimp only
      rw [hp2]
      rfl

lemma parseFrame_cons (a b c : List ℚ) (rest : List (List ℚ)) :
    parseFrame (a :: b :: c :: rest) =
      match Camera.ofLog (b.drop 1) (c.drop 1) with
      | none => none
      | some cam => (parseWalkers cam rest).map (fun ws => (cam, ws)) := rfl

/-- C8: per-frame parsing reads the velocity, camera-setting and
camera-pose lines, then accumulates actor lines until a blank line or a
line with fewer than 10 tokens; on such a short line parsing stops but
every previously parsed actor remains in the frame's actor list,
whatever follows. -/
theorem C8_partial_frame (vel settingL infoL : List ℚ) (good : List (List ℚ))
    (bad : List ℚ) (rest : List (List ℚ)) (cam : Camera)
    (hcam : Camera.ofLog (settingL.drop 1) (infoL.drop 1) = some cam)
    (hgood : ∀ l ∈ good, 14 ≤ l.length ∧ (l.getD 1 0).den = 1)
    (hbad : bad.length < 10) :
    ∃ ws : List Walker,
      parseFrame (vel :: settingL :: infoL :: (good ++ bad :: rest)) = some (cam, ws) ∧
        parseWalkers cam good = some ws ∧ ws.length = good.length := by
  obtain ⟨ws, hp1, hp2, hp3⟩ := parseWalkers_good cam good bad rest hgood hbad
  refine ⟨ws, ?_, hp2, hp3⟩
  rw [parseFrame_cons, hcam]
  dsimp only
  rw [hp1]
  rfl

/-- Witness for C8: a concrete frame whose single well-formed actor line
(the line of `wkA`) is followed by a 2-token line and further junk. -/
theorem C8_witness :
    ∃ ws : List Walker,
      parseFrame ([0] :: [0, 1, 1, 90] :: [0, 0, 0, 0, 0, 0, 0] ::
          ([[0, 7, 0, 17, 35, 0, 16, -34, 1, 0, 0, 0, 0, 0]] ++ [1, 2] :: [[3]])) =
        some (cam1, ws) ∧
      parseWalkers cam1 [[0, 7, 0, 17, 35, 0, 16, -34, 1, 0, 0, 0, 0, 0]] = some ws ∧
      ws.length = [[0, 7, 0, 17, 35, 0, 16, -34, 1, 0, 0, 0, 0, 0]].length :=
  C8_partial_frame [0] [0, 1, 1, 90] [0, 0, 0, 0, 0, 0, 0]
    [[0, 7, 0, 17, 35, 0, 16, -34, 1, 0, 0, 0, 0, 0]] [1, 2] [[3]] cam1
    (by decide) (by decide) (by decide)

/-- A record emitted by one occlusion-loop iteration carries the
width/height of the walker's 2D box plus one. -/
lemma processWalker_rec_mem (tm : TrigModel) (sem : ℤ → ℤ → ℤ × ℤ × ℤ)
    (himg wimg fr : ℤ) (inst : ℤ → ℤ → ℤ) (w : Walker) (rec : GTRec)
    (h : rec ∈ (processWalker tm sem himg wimg fr inst w).2.toList) :
    ∃ mnx mny mxx mxy, w.get_2d_bounding_box tm = some ((mnx, mny), (mxx, mxy)) ∧
      rec.width = mxx - mnx + 1 ∧ rec.height = mxy - mny + 1 := by
  cases hbb : w.get_2d_bounding_box tm with
  | none =>
    rw [processWalker_def, hbb] at h
    simp at h
  | some r =>
    obtain ⟨⟨mnx, mny⟩, mxx, mxy⟩ := r
    rw [processWalker_def, hbb] at h
    dsimp only at h
    split at h
    · simp at h
    · simp only [Option.toList_some, List.mem_singleton] at h
      exact ⟨mnx, mny, mxx, mxy, rfl, by rw [h], by rw [h]⟩

/-- C10: every ground-truth record produced by the occlusion loop has a
width field of at least 18 and a height field of at least 36 (the size
check bounds `max-min` below by 17/35 and the writer emits
`max-min+1`). -/
theorem C10_written_size (tm : TrigModel) (sem : ℤ → ℤ → ℤ × ℤ × ℤ)
    (himg wimg fr : ℤ) :
    ∀ (ws : List Walker) (inst : ℤ → ℤ → ℤ) (rec : GTRec),
      rec ∈ (processWalkers tm sem himg wimg fr ws inst).2 →
      18 ≤ rec.width ∧ 36 ≤ rec.height
  | [], _, rec, h => absurd h (List.not_mem_nil rec)
  | w :: ws, inst, rec, h => by
    rw [processWalkers] at h
    dsimp only at h
    rcases List.mem_append.mp h with h | h
    · obtain ⟨mnx, mny, mxx, mxy, hbb, hw, hh⟩ :=
        processWalker_rec_mem tm sem himg wimg fr inst w rec h
      obtain ⟨h1, h2⟩ := bb2d_size tm w mnx mny mxx mxy hbb
      omega
    · exact C10_written_size tm sem himg wimg fr ws _ rec h

set_option maxRecDepth 40000 in
/-- Witness for C10: the record emitted for `wkD` has width 18 and
height 36. -/
theorem C10_witness :
    (⟨1, 4, 0, 0, 18, 36, 1, 1, 1⟩ : GTRec) ∈
        (processWalkers tm0 semP 8 17 1 [wkD] initInstance).2 ∧
      18 ≤ (GTRec.mk 1 4 0 0 18 36 1 1 1).width ∧
      36 ≤ (GTRec.mk 1 4 0 0 18 36 1 1 1).height := by
  have hacc : ¬ (((17 : ℤ) - 0 + 1) * (35 - 0 + 1) > 0 ∧
      10 * (scanWalker semP 8 17 wkD.id 0 0 17 35 initInstance).cnt <
        2 * ((17 - 0 + 1) * (35 - 0 + 1))) := by decide
  have hone : (processWalker tm0 semP 8 17 1 initInstance wkD).2 =
      some ⟨1, wkD.id, 0, 0, 17 - 0 + 1, 35 - 0 + 1, 1, 1, 1⟩ := by
    rw [processWalker_def, wkD_bb2d]
    dsimp only
    split
    · rename_i hc
      exact absurd hc hacc
    · rfl
  have hmem : (⟨1, 4, 0, 0, 18, 36, 1, 1, 1⟩ : GTRec) ∈
      (processWalkers tm0 semP 8 17 1 [wkD] initInstance).2 := by
    have hlist : (processWalkers tm0 semP 8 17 1 [wkD] initInstance).2 =
        (processWalker tm0 semP 8 17 1 initInstance wkD).2.toList := by
      simp [processWalkers]
    rw [hlist, hone]
    decide
  exact ⟨hmem, C10_written_size tm0 semP 8 17 1 [wkD] initInstance _ hmem⟩

end DetectingWalkers
